import Mathlib

/-!
Shallow embedding of the CAN-bus message configuration model of the
ioBroker.canbus adapter, taken from `src/admin/src/components/message.tsx`
(the `Message` component: state shape, `validateState`, `handleChange`,
`onParserAdd`, `onParserValidate`, `onParserChange`, `onParserDelete`) and
`src/src/lib/interfaces.d.ts` (`idWithDlc`), together with a model of the
byte-field codec contract described by the specification.  JavaScript
objects with string keys are embedded as insertion-ordered association
lists, and the React callbacks (`onChange`, `onValidate`) are embedded as
an explicit event list returned by every operation.
-/

namespace Canbus

/-- One hexadecimal digit, case-insensitive: 0-9, a-f or A-F. -/
def isHexDigitChar (c : Char) : Bool :=
  (decide ('0' ≤ c) && decide (c ≤ '9')) ||
  (decide ('a' ≤ c) && decide (c ≤ 'f')) ||
  (decide ('A' ≤ c) && decide (c ≤ 'F'))

/-- Modelled from the spec: `MESSAGE_ID_REGEXP` is defined in `src/consts.ts`,
which is not among the provided sources; the spec fixes it as an anchored,
case-insensitive match of exactly 3 or exactly 8 hexadecimal characters.
`matchHexRun cs n` matches a run of exactly `n` hexadecimal digits. -/
def matchHexRun : List Char → Nat → Bool
  | [], 0 => true
  | [], _ + 1 => false
  | _ :: _, 0 => false
  | c :: cs, n + 1 => isHexDigitChar c && matchHexRun cs n

/-- Modelled from the spec: the test `state.id.match(MESSAGE_ID_REGEXP)` used by
`validateState`, as the anchored alternation of a 3-digit and an 8-digit hex run. -/
def matchesMessageIdRegexp (s : String) : Bool :=
  matchHexRun s.data 3 || matchHexRun s.data 8

/-- The predicate the spec states in its own words: `s` consists of exactly 3 or
exactly 8 hexadecimal characters (case-insensitive).  Kept separate from
`matchesMessageIdRegexp` so the two formulations can be compared. -/
def specHexId (s : String) : Bool :=
  (decide (s.length = 3) || decide (s.length = 8)) && s.data.all isHexDigitChar

/-- Modelled from the spec: the scalar kinds of a parser's `dataType`, as the
spec enumerates them — signed and unsigned integers of 8/16/32/64 bits,
floating point (single and double width), string, boolean and custom (the full
union type is declared in the global ioBroker typings, outside the provided
sources). -/
inductive DataType where
  | int8
  | uint8
  | int16
  | uint16
  | int32
  | uint32
  | int64
  | uint64
  | float32
  | float64
  | boolean
  | string
  | custom
  deriving DecidableEq, Repr

/-- Byte width of one value of a fixed-width `DataType` (the string and custom
kinds have no fixed width; they take their extent from `dataLength` alone and
this function is not consulted for them). -/
def byteWidth : DataType → Nat
  | DataType.int8 => 1
  | DataType.uint8 => 1
  | DataType.int16 => 2
  | DataType.uint16 => 2
  | DataType.int32 => 4
  | DataType.uint32 => 4
  | DataType.int64 => 8
  | DataType.uint64 => 8
  | DataType.float32 => 4
  | DataType.float64 => 8
  | DataType.boolean => 1
  | DataType.string => 0
  | DataType.custom => 0

/-- Whether a `DataType` is interpreted as a signed integer. -/
def isSigned : DataType → Bool
  | DataType.int8 => true
  | DataType.int16 => true
  | DataType.int32 => true
  | DataType.int64 => true
  | _ => false

/-- Whether a `DataType` is one of the floating point kinds. -/
def isFloat : DataType → Bool
  | DataType.float32 => true
  | DataType.float64 => true
  | _ => false

/-- One parser configuration (`ioBroker.AdapterConfigMessageParser`), with the
fields in the order of the literal in `onParserAdd`.  Empty strings in
`customScriptRead` / `customScriptWrite` mean the custom transform is unset. -/
structure ParserCfg where
  id : String
  name : String
  dataType : DataType
  dataLength : Nat
  dataOffset : Nat
  dataUnit : String
  dataEncoding : String
  booleanMask : Nat
  booleanInvert : Bool
  customScriptRead : String
  customScriptWrite : String
  deriving DecidableEq, Repr

/-- The default parser created by `onParserAdd` (message.tsx lines 389-401). -/
def defaultParserCfg : ParserCfg :=
  { id := ""
    name := ""
    dataType := DataType.int8
    dataLength := 1
    dataOffset := 0
    dataUnit := ""
    dataEncoding := "latin1"
    booleanMask := 0
    booleanInvert := false
    customScriptRead := ""
    customScriptWrite := "" }

/-- Lookup in an insertion-ordered association list (a JavaScript object with
string keys). -/
def assocLookup {β : Type} : List (String × β) → String → Option β
  | [], _ => none
  | kv :: l, k => if kv.1 == k then some kv.2 else assocLookup l k

/-- `obj[k] = v` on a JavaScript object: replace the value at the first
occurrence of `k` keeping its position, or append `(k, v)` at the end. -/
def assocSet {β : Type} : List (String × β) → String → β → List (String × β)
  | [], k, v => [(k, v)]
  | kv :: l, k, v => if kv.1 == k then (k, v) :: l else kv :: assocSet l k v

/-- `delete obj[k]` on a JavaScript object. -/
def assocRemove {β : Type} : List (String × β) → String → List (String × β)
  | [], _ => []
  | kv :: l, k => if kv.1 == k then assocRemove l k else kv :: assocRemove l k

/-- The persisted message configuration (`ioBroker.AdapterConfigMessage`),
exactly the seven fields of the object literal handed to `onChange` in
`handleChange` (message.tsx lines 329-337). -/
structure AdapterConfigMessage where
  id : String
  name : String
  dlc : Int
  receive : Bool
  send : Bool
  autosend : Bool
  parsers : List (String × ParserCfg)
  deriving DecidableEq, Repr

/-- The React state of the `Message` component (`MessageState`), fields in
declaration order of the constructor (message.tsx lines 102-114). -/
structure MessageState where
  tabIndex : Int
  id : String
  idError : Option String
  name : String
  dlc : Int
  receive : Bool
  send : Bool
  autosend : Bool
  parsers : List (String × ParserCfg)
  parsersValid : List (String × Bool)
  showRemoveConfirm : Bool
  deriving DecidableEq, Repr

/-- An outbound callback invocation of the `Message` component: `validate` is a
call of `props.onValidate(uuid, isValid)`, `change` a call of
`props.onChange(uuid, config)`.  The `uuid` argument is the constant
`props.uuid` and is omitted. -/
inductive MsgEvent where
  | validate (isValid : Bool)
  | change (cfg : AdapterConfigMessage)
  deriving DecidableEq, Repr

/-- The sequence of `isValid` values reported through `onValidate`, in order. -/
def validityReports (evs : List MsgEvent) : List Bool :=
  evs.filterMap (fun e =>
    match e with
    | MsgEvent.validate b => some b
    | MsgEvent.change _ => none)

/-- Whether any `onChange` call occurs in the event list. -/
def hasChangeEvent (evs : List MsgEvent) : Bool :=
  evs.any (fun e =>
    match e with
    | MsgEvent.change _ => true
    | MsgEvent.validate _ => false)

/-- Whether any `onValidate` call occurs in the event list. -/
def hasValidityReport (evs : List MsgEvent) : Bool :=
  evs.any (fun e =>
    match e with
    | MsgEvent.validate _ => true
    | MsgEvent.change _ => false)

/-- The configurations delivered through `onChange`, in order. -/
def changePayloads (evs : List MsgEvent) : List AdapterConfigMessage :=
  evs.filterMap (fun e =>
    match e with
    | MsgEvent.change c => some c
    | MsgEvent.validate _ => none)

/-- The conjunction the `for (const uuid in parsersValid)` loop of
`validateState` computes: all cached child verdicts are true. -/
def allParsersValid (pv : List (String × Bool)) : Bool :=
  pv.all (fun kv => kv.2)

/-- Embeds `validateState` (message.tsx lines 350-381).  `newId` is the `id`
field of the partial state argument (`none` when that field is absent),
`prevIdError` is `this.state.idError` and `parsersValid` is
`this.state.parsersValid`.  Returns the `idError` the partial state carries
after the call together with the computed `isValid` that is reported through
`props.onValidate`. -/
def validateState (newId : Option String) (prevIdError : Option String)
    (parsersValid : List (String × Bool)) : Option String × Bool :=
  let idRes : Option String × Bool :=
    match newId with
    | some s =>
        if matchesMessageIdRegexp s then (none, true)
        else (some "Must be a 3 or 8 char hex ID", false)
    | none => (prevIdError, prevIdError.isNone)
  (idRes.1,
   List.foldl (fun acc kv => if kv.2 = false then false else acc) idRes.2 parsersValid)

/-- A single-field state update handed to `handleChange`, one constructor per
persisted field the component wires to `handleChange`. -/
inductive FieldUpdate where
  | id (v : String)
  | name (v : String)
  | dlc (v : Int)
  | receive (v : Bool)
  | send (v : Bool)
  | autosend (v : Bool)
  | parsers (v : List (String × ParserCfg))

/-- The persisted seven-field configuration extracted from the state, exactly
the object literal `handleChange` passes to `props.onChange`. -/
def persistedConfig (st : MessageState) : AdapterConfigMessage :=
  { id := st.id
    name := st.name
    dlc := st.dlc
    receive := st.receive
    send := st.send
    autosend := st.autosend
    parsers := st.parsers }

/-- Merge the single-field update into the state (`this.setState(newState)`),
together with the `idError` that `validateState` wrote into the partial state
(unchanged unless the update is an `id` update). -/
def applyUpdate (st : MessageState) (u : FieldUpdate) (idErr : Option String) :
    MessageState :=
  match u with
  | FieldUpdate.id v => { st with id := v, idError := idErr }
  | FieldUpdate.name v => { st with name := v }
  | FieldUpdate.dlc v => { st with dlc := v }
  | FieldUpdate.receive v => { st with receive := v }
  | FieldUpdate.send v => { st with send := v }
  | FieldUpdate.autosend v => { st with autosend := v }
  | FieldUpdate.parsers v => { st with parsers := v }

/-- Embeds `handleChange` (message.tsx lines 319-342): validate the partial
state against the current state (emitting an `onValidate` call), merge it, then
emit `onChange` with the persisted fields of the merged state. -/
def handleChange (st : MessageState) (u : FieldUpdate) :
    MessageState × List MsgEvent :=
  let newId : Option String :=
    match u with
    | FieldUpdate.id v => some v
    | _ => none
  let res := validateState newId st.idError st.parsersValid
  let st' := applyUpdate st u res.1
  (st', [MsgEvent.validate res.2, MsgEvent.change (persistedConfig st')])

/-- Embeds `onParserValidate` (message.tsx lines 420-435): record the child
verdict in a copy of `parsersValid`, commit it, then revalidate (which emits
`onValidate`); no `onChange` call is made. -/
def onParserValidate (st : MessageState) (uuid : String) (valid : Bool) :
    MessageState × List MsgEvent :=
  let pv := assocSet st.parsersValid uuid valid
  let st' := { st with parsersValid := pv }
  let res := validateState none st'.idError st'.parsersValid
  (st', [MsgEvent.validate res.2])

/-- Embeds `onParserAdd` (message.tsx lines 386-413): insert the default parser
under a freshly allocated key (`uuidv4()`, passed in as `uuid`), run
`handleChange` on the new `parsers` object, report the new parser invalid, then
move the tab index to the last parser. -/
def onParserAdd (st : MessageState) (uuid : String) :
    MessageState × List MsgEvent :=
  let parsersNew := assocSet st.parsers uuid defaultParserCfg
  let r1 := handleChange st (FieldUpdate.parsers parsersNew)
  let r2 := onParserValidate r1.1 uuid false
  let st3 := { r2.1 with tabIndex := (r2.1.parsers.length : Int) - 1 }
  (st3, r1.2 ++ r2.2)

/-- Embeds `onParserChange` (message.tsx lines 442-447): replace one parser
config in a copy of `parsers` and run `handleChange`. -/
def onParserChange (st : MessageState) (uuid : String) (cfg : ParserCfg) :
    MessageState × List MsgEvent :=
  handleChange st (FieldUpdate.parsers (assocSet st.parsers uuid cfg))

/-- Embeds `onParserDelete` (message.tsx lines 453-468): delete the key from a
copy of `parsers`, run `handleChange`, then step the tab index back, clamping
at zero.  Note: `parsersValid` is not touched. -/
def onParserDelete (st : MessageState) (uuid : String) :
    MessageState × List MsgEvent :=
  let r1 := handleChange st (FieldUpdate.parsers (assocRemove st.parsers uuid))
  let t := r1.1.tabIndex - 1
  ({ r1.1 with tabIndex := if t < 0 then 0 else t }, r1.2)

/-- Embeds the `msgId` expression handed to each child `Parser` (message.tsx
line 262) and the `idWithDlc` field of `MessageConfig`
(src/src/lib/interfaces.d.ts): the composite key of a message. -/
def idWithDlc (id : String) (dlc : Int) : String :=
  if dlc ≥ 0 then id ++ "-" ++ toString dlc else id

/-- Modelled from the spec: the error kinds of the byte-field codec (the parser
classes under `src/src/parsers/` are not among the provided sources).
`typeMismatch` covers handing `encode` a value of the wrong kind for the
descriptor, a case the spec does not enumerate and no claim reaches. -/
inductive CodecError where
  | fieldOutOfRange
  | customScriptError
  | typeMismatch
  deriving DecidableEq, Repr

/-- Modelled from the spec: a decoded or to-be-encoded primitive value.
Integer kinds carry an `Int`, the boolean kind a `Bool`, the string kind a
`String`.  The floating point kinds are carried as their raw bit pattern
(`floatBits`): the spec fixes only that the raw bits of the field are
interpreted per the type's width, and the IEEE-754 reading of a canonical bit
pattern is injective, so the codec round-trip is stated on the bit patterns
the codec actually moves. -/
inductive CodecValue where
  | num (n : Int)
  | bool (b : Bool)
  | str (s : String)
  | floatBits (bits : Nat)
  deriving DecidableEq, Repr

/-- Big-endian byte list of fixed length `len` for a natural number (the spec
leaves the endianness convention open; this development fixes big-endian and
byte granularity throughout, so the round-trip statements are self-consistent). -/
def natToBytesBE : Nat → Nat → List Nat
  | 0, _ => []
  | len + 1, v => natToBytesBE len (v / 256) ++ [v % 256]

/-- Read a big-endian byte list back as a natural number. -/
def bytesToNatBE (bs : List Nat) : Nat :=
  bs.foldl (fun acc b => acc * 256 + b) 0

/-- Two's-complement reading of a `len`-byte raw value. -/
def toSignedInt (len : Nat) (raw : Nat) : Int :=
  if raw < 2 ^ (8 * len - 1) then (raw : Int) else (raw : Int) - 2 ^ (8 * len)

/-- The payload fragment `encode` produces: `len` field bytes spliced at byte
offset `off` into an otherwise zero payload. -/
def packNat (off len v : Nat) : List Nat :=
  List.replicate off 0 ++ natToBytesBE len v

/-- The byte slice a field occupies: `len` bytes starting at byte offset `off`
of the payload. -/
def extractBytes (off len : Nat) (payload : List Nat) : List Nat :=
  (payload.drop off).take len

/-- The raw field value `decode` extracts: the field's byte slice read
big-endian. -/
def extractRaw (off len : Nat) (payload : List Nat) : Nat :=
  bytesToNatBE (extractBytes off len payload)

/-- Modelled from the spec: well-formedness of a descriptor (spec section 4.2:
non-empty `id`, positive `dataLength` consistent with the `dataType` width
where that width is fixed, and a recognized `dataEncoding` for the string
kind; for the boolean kind the mask must additionally fit the one-byte
field). -/
def wellFormed (p : ParserCfg) : Bool :=
  (p.id != "") &&
  (match p.dataType with
   | DataType.string => decide (0 < p.dataLength) && (p.dataEncoding == "latin1")
   | DataType.custom => decide (0 < p.dataLength)
   | t => p.dataLength == byteWidth t) &&
  (!(p.dataType == DataType.boolean) || decide (p.booleanMask < 256))

/-- Modelled from the spec: `v` is representable in `dataLength` units of the
descriptor's `dataType`.  Integer values must fit the field's two's-complement
or unsigned range, both booleans fit the boolean kind, a string fits when it
has exactly `dataLength` latin1-encodable characters, and a float bit pattern
fits when it fits the field's bits.  The custom kind has no built-in value
interpretation — its decode and encode are entirely the user script — so
without a script no value is representable for it. -/
def representable (p : ParserCfg) (v : CodecValue) : Bool :=
  if p.dataType = DataType.boolean then
    match v with
    | CodecValue.bool _ => true
    | _ => false
  else if p.dataType = DataType.string then
    match v with
    | CodecValue.str s =>
        decide (s.length = p.dataLength) &&
        s.data.all (fun c => decide (c.toNat < 256))
    | _ => false
  else if p.dataType = DataType.custom then
    false
  else if isFloat p.dataType then
    match v with
    | CodecValue.floatBits b => decide (b < 2 ^ (8 * p.dataLength))
    | _ => false
  else
    match v with
    | CodecValue.num n =>
        if isSigned p.dataType then
          decide (-(2 ^ (8 * p.dataLength - 1) : Int) ≤ n) &&
          decide (n < 2 ^ (8 * p.dataLength - 1))
        else
          decide (0 ≤ n) && decide (n < (2 ^ (8 * p.dataLength) : Int))
    | _ => false

/-- Modelled from the spec: `decode(descriptor, payload)` (spec section 4.1).
Reads `dataLength` bytes at `dataOffset`; integer kinds are read per the
type's signedness, the float kinds yield the field's raw bit pattern, the
boolean kind applies `booleanMask` and XORs `booleanInvert`, the string kind
decodes the byte range as latin1; an out-of-range field fails closed.  The
custom transform of `customScriptRead` — and the custom kind, whose entire
interpretation is the user script — is not embeddable; entering that path is
modelled as `customScriptError`. -/
def decode (p : ParserCfg) (payload : List Nat) : Except CodecError CodecValue :=
  if p.customScriptRead != "" then Except.error CodecError.customScriptError
  else if payload.length < p.dataOffset + p.dataLength then
    Except.error CodecError.fieldOutOfRange
  else
    let raw := extractRaw p.dataOffset p.dataLength payload
    if p.dataType = DataType.boolean then
      Except.ok (CodecValue.bool (Bool.xor (raw &&& p.booleanMask != 0) p.booleanInvert))
    else if p.dataType = DataType.string then
      Except.ok (CodecValue.str (String.mk
        ((extractBytes p.dataOffset p.dataLength payload).map Char.ofNat)))
    else if p.dataType = DataType.custom then
      Except.error CodecError.customScriptError
    else if isFloat p.dataType then
      Except.ok (CodecValue.floatBits raw)
    else if isSigned p.dataType then
      Except.ok (CodecValue.num (toSignedInt p.dataLength raw))
    else Except.ok (CodecValue.num (raw : Int))

/-- Modelled from the spec: `encode(descriptor, value)` (spec section 4.1), the
inverse operation.  The boolean kind re-applies mask and invert to produce the
bit pattern to splice into the payload; integer kinds pack the two's-complement
bytes; the float kinds pack the raw bit pattern; the string kind packs the
latin1 bytes of the characters; a value outside the field's range — or a string
of the wrong length or with non-latin1 characters — fails closed rather than
truncating.  The custom transform of `customScriptWrite`, and the custom kind,
are modelled as for `decode`. -/
def encode (p : ParserCfg) (v : CodecValue) : Except CodecError (List Nat) :=
  if p.customScriptWrite != "" then Except.error CodecError.customScriptError
  else if p.dataType = DataType.boolean then
    match v with
    | CodecValue.bool b =>
        Except.ok (packNat p.dataOffset p.dataLength
          (if Bool.xor b p.booleanInvert then p.booleanMask else 0))
    | _ => Except.error CodecError.typeMismatch
  else if p.dataType = DataType.string then
    match v with
    | CodecValue.str s =>
        if decide (s.length = p.dataLength) &&
            s.data.all (fun c => decide (c.toNat < 256)) then
          Except.ok (List.replicate p.dataOffset 0 ++ s.data.map Char.toNat)
        else Except.error CodecError.fieldOutOfRange
    | _ => Except.error CodecError.typeMismatch
  else if p.dataType = DataType.custom then
    Except.error CodecError.customScriptError
  else if isFloat p.dataType then
    match v with
    | CodecValue.floatBits b =>
        if b < 2 ^ (8 * p.dataLength) then
          Except.ok (packNat p.dataOffset p.dataLength b)
        else Except.error CodecError.fieldOutOfRange
    | _ => Except.error CodecError.typeMismatch
  else
    match v with
    | CodecValue.num n =>
        if isSigned p.dataType then
          if -(2 ^ (8 * p.dataLength - 1) : Int) ≤ n ∧ n < 2 ^ (8 * p.dataLength - 1) then
            Except.ok (packNat p.dataOffset p.dataLength
              ((n % (2 ^ (8 * p.dataLength) : Int)).toNat))
          else Except.error CodecError.fieldOutOfRange
        else
          if 0 ≤ n ∧ n < (2 ^ (8 * p.dataLength) : Int) then
            Except.ok (packNat p.dataOffset p.dataLength n.toNat)
          else Except.error CodecError.fieldOutOfRange
    | _ => Except.error CodecError.typeMismatch

/-- The own-field part of `validateState`: a fresh regexp check when an `id` is
being set, otherwise the cached result of the previous check. -/
def ownIdOk (newId : Option String) (prevIdError : Option String) : Bool :=
  match newId with
  | some s => matchesMessageIdRegexp s
  | none => prevIdError.isNone

theorem foldl_andAcc (pv : List (String × Bool)) (b : Bool) :
    List.foldl (fun acc kv => kv.2 && acc) b pv = (b && allParsersValid pv) := by
  induction pv generalizing b with
  | nil => simp [allParsersValid]
  | cons kv l ih =>
      rw [List.foldl_cons, ih]
      cases h : kv.2 <;> cases b <;> simp [allParsersValid, h]

theorem validateState_snd (newId e : Option String) (pv : List (String × Bool)) :
    (validateState newId e pv).2 = (ownIdOk newId e && allParsersValid pv) := by
  cases newId with
  | none => simp [validateState, ownIdOk, foldl_andAcc]
  | some s =>
      cases h : matchesMessageIdRegexp s <;>
        simp [validateState, ownIdOk, h, foldl_andAcc]

theorem validateState_fst_some (s : String) (e : Option String)
    (pv : List (String × Bool)) :
    (validateState (some s) e pv).1
      = if matchesMessageIdRegexp s then none else some "Must be a 3 or 8 char hex ID" := by
  cases h : matchesMessageIdRegexp s <;> simp [validateState, h]

theorem validateState_fst_none (e : Option String) (pv : List (String × Bool)) :
    (validateState none e pv).1 = e := by
  simp [validateState]

theorem matchHexRun_eq (cs : List Char) (n : Nat) :
    matchHexRun cs n = (decide (cs.length = n) && cs.all isHexDigitChar) := by
  induction cs generalizing n with
  | nil => cases n <;> simp [matchHexRun]
  | cons c cs ih =>
      cases n with
      | zero => simp [matchHexRun]
      | succ n =>
          have h1 : matchHexRun (c :: cs) (n + 1)
              = (isHexDigitChar c && matchHexRun cs n) := rfl
          have h2 : decide ((c :: cs).length = n + 1) = decide (cs.length = n) :=
            decide_eq_decide.mpr (by simp)
          rw [h1, ih, h2, List.all_cons, Bool.and_left_comm]

theorem matchesMessageIdRegexp_eq_specHexId (s : String) :
    matchesMessageIdRegexp s = specHexId s := by
  have hlen : s.length = s.data.length := rfl
  have h3 : decide (s.data.length = 3) = decide (s.length = 3) :=
    decide_eq_decide.mpr (by rw [hlen])
  have h8 : decide (s.data.length = 8) = decide (s.length = 8) :=
    decide_eq_decide.mpr (by rw [hlen])
  rw [matchesMessageIdRegexp, specHexId, matchHexRun_eq, matchHexRun_eq, h3, h8]
  cases h : s.data.all isHexDigitChar <;>
    cases h3' : decide (s.length = 3) <;> simp [h, h3']

theorem assocLookup_set_self {β : Type} (l : List (String × β)) (k : String) (v : β) :
    assocLookup (assocSet l k v) k = some v := by
  induction l with
  | nil => simp [assocSet, assocLookup]
  | cons kv l ih => cases h : (kv.1 == k) <;> simp [assocSet, assocLookup, h, ih]

theorem assocLookup_remove_self {β : Type} (l : List (String × β)) (k : String) :
    assocLookup (assocRemove l k) k = none := by
  induction l with
  | nil => simp [assocRemove, assocLookup]
  | cons kv l ih => cases h : (kv.1 == k) <;> simp [assocRemove, assocLookup, h, ih]

theorem allParsersValid_set_false (pv : List (String × Bool)) (k : String) :
    allParsersValid (assocSet pv k false) = false := by
  induction pv with
  | nil => simp [assocSet, allParsersValid]
  | cons kv l ih =>
      cases h : (kv.1 == k) <;>
        simp_all [assocSet, allParsersValid, h]

/-- Claim C3: on a validation pass the aggregate validity equals the own
id-format check ANDed with the conjunction of all cached child verdicts; with
an empty child-validity map the conjunction is vacuously true, so a message
with zero parsers and a valid id is reported Valid. -/
theorem validateState_isValid_eq (newId e : Option String)
    (pv : List (String × Bool)) :
    (validateState newId e pv).2 = (ownIdOk newId e && allParsersValid pv)
    ∧ (validateState newId e []).2 = ownIdOk newId e
    ∧ (validateState (some "1AB") none []).2 = true := by
  refine ⟨validateState_snd newId e pv, ?_, by decide⟩
  rw [validateState_snd]
  simp [allParsersValid]

/-- Claim C2: setting a message id `s` reports a malformed-id error iff `s` is
not exactly 3 or exactly 8 hexadecimal characters (case-insensitive), and a
malformed id makes the message's own-field check (hence the reported aggregate
validity) fail; in particular the empty string is an invalid id. -/
theorem validateState_malformedId_iff (s : String) (e : Option String)
    (pv : List (String × Bool)) :
    ((validateState (some s) e pv).1.isSome = true ↔ specHexId s = false)
    ∧ (specHexId s = false → (validateState (some s) e pv).2 = false) := by
  have hm : matchesMessageIdRegexp s = specHexId s :=
    matchesMessageIdRegexp_eq_specHexId s
  constructor
  · rw [validateState_fst_some, hm]
    cases h : specHexId s <;> simp [h]
  · intro hbad
    rw [validateState_snd]
    simp [ownIdOk, hm, hbad]

theorem validateState_malformedId_iff_witness :
    (validateState (some "") none []).1.isSome = true
    ∧ (validateState (some "") none []).2 = false :=
  ⟨(validateState_malformedId_iff "" none []).1.mpr (by decide),
   (validateState_malformedId_iff "" none []).2 (by decide)⟩

/-- Claim C5: the composite key handed to child parsers equals
`id ++ "-" ++ dlc` when `dlc ≥ 0` and equals `id` unchanged when `dlc = -1`. -/
theorem idWithDlc_spec (id : String) (d : Int) :
    (0 ≤ d → idWithDlc id d = id ++ "-" ++ toString d)
    ∧ (d = -1 → idWithDlc id d = id) := by
  constructor
  · intro h
    simp [idWithDlc, ge_iff_le, h]
  · intro h
    subst h
    simp [idWithDlc]

theorem idWithDlc_spec_witness :
    idWithDlc "1AB" 4 = "1AB-4" ∧ idWithDlc "1AB" (-1) = "1AB" :=
  ⟨((idWithDlc_spec "1AB" 4).1 (by decide)).trans (by decide),
   (idWithDlc_spec "1AB" (-1)).2 rfl⟩

/-- A concrete state used by the deletion counterexample: a message with a
valid id whose single parser "k" has a cached Invalid verdict. -/
def C1state : MessageState :=
  { tabIndex := 0
    id := "1AB"
    idError := none
    name := ""
    dlc := -1
    receive := false
    send := false
    autosend := false
    parsers := [("k", defaultParserCfg)]
    parsersValid := [("k", false)]
    showRemoveConfirm := false }

/-- Claim C1 counterexample: in `C1state` the message's own fields are valid
and "k" is the only child, with a cached Invalid verdict.  After
`onParserDelete "k"` the key is still present in the child-validity map (it is
removed from `parsers` only), and the validity reported during the deletion is
Invalid, not Valid as the claim states. -/
theorem onParserDelete_claim_counterexample :
    C1state.idError = none
    ∧ C1state.parsersValid = [("k", false)]
    ∧ assocLookup ((onParserDelete C1state "k").1.parsers) "k" = none
    ∧ assocLookup ((onParserDelete C1state "k").1.parsersValid) "k" = some false
    ∧ validityReports ((onParserDelete C1state "k").2) = [false] := by
  decide

/-- Claim C1 (amended): `deleteParser` removes the key from the `parsers`
mapping only; the aggregator's child-validity map is left unchanged, and the
validity reported during the deletion is still the AND of the own-field check
with all previously cached child verdicts, including the deleted parser's — so
deleting the only Invalid child leaves the message reported Invalid. -/
theorem onParserDelete_keeps_stale_child_verdict (st : MessageState) (k : String) :
    assocLookup ((onParserDelete st k).1.parsers) k = none
    ∧ (onParserDelete st k).1.parsersValid = st.parsersValid
    ∧ validityReports ((onParserDelete st k).2)
        = [st.idError.isNone && allParsersValid st.parsersValid] := by
  refine ⟨?_, ?_, ?_⟩
  · simp [onParserDelete, handleChange, applyUpdate, assocLookup_remove_self]
  · simp [onParserDelete, handleChange, applyUpdate]
  · simp [onParserDelete, handleChange, applyUpdate, validityReports,
      validateState_snd, ownIdOk]

/-- Claim C4: `onParserAdd` inserts the default parser (whose `id` is the empty
string) under the fresh key, afterwards the key's entry in the child-validity
map is `false`, and the last validity report emitted during the operation — the
one triggered by `onParserValidate(uuid, false)` — is Invalid, before any field
of the new parser is edited. -/
theorem onParserAdd_reports_invalid (st : MessageState) (u : String) :
    assocLookup ((onParserAdd st u).1.parsersValid) u = some false
    ∧ assocLookup ((onParserAdd st u).1.parsers) u = some defaultParserCfg
    ∧ defaultParserCfg.id = ""
    ∧ (validityReports (onParserAdd st u).2).getLast? = some false := by
  refine ⟨?_, ?_, rfl, ?_⟩
  · simp [onParserAdd, onParserValidate, handleChange, applyUpdate,
      assocLookup_set_self]
  · simp [onParserAdd, onParserValidate, handleChange, applyUpdate,
      assocLookup_set_self]
  · simp [onParserAdd, onParserValidate, handleChange, applyUpdate,
      validityReports, validateState_snd, ownIdOk, allParsersValid_set_false]

/-- Claim C6: `handleChange` — the path taken by every mutation of a persisted
field — always fires the change callback, while `onParserValidate`, which only
records a child-validity verdict, never does. -/
theorem change_event_policy (st : MessageState) (u : FieldUpdate) (k : String)
    (v : Bool) :
    hasChangeEvent (handleChange st u).2 = true
    ∧ hasChangeEvent (onParserValidate st k v).2 = false := by
  constructor
  · simp [handleChange, hasChangeEvent]
  · simp [onParserValidate, hasChangeEvent]

/-- Claim C7: setting any persisted field other than `id` (name, dlc in
[-1, 8], receive, send, autosend) leaves the own-field check untouched: the
validity reported by the mutation is exactly the previous id-check result ANDed
with the cached child verdicts, and the stored id error is unchanged — no
cross-check of `dlc` against parser offsets happens at set time. -/
theorem nonId_field_update_validity (st : MessageState) (s : String) (d : Int)
    (b : Bool) (_hd1 : -1 ≤ d) (_hd2 : d ≤ 8) :
    (validityReports (handleChange st (FieldUpdate.name s)).2
        = [st.idError.isNone && allParsersValid st.parsersValid]
      ∧ (handleChange st (FieldUpdate.name s)).1.idError = st.idError)
    ∧ (validityReports (handleChange st (FieldUpdate.dlc d)).2
        = [st.idError.isNone && allParsersValid st.parsersValid]
      ∧ (handleChange st (FieldUpdate.dlc d)).1.idError = st.idError)
    ∧ (validityReports (handleChange st (FieldUpdate.receive b)).2
        = [st.idError.isNone && allParsersValid st.parsersValid]
      ∧ (handleChange st (FieldUpdate.receive b)).1.idError = st.idError)
    ∧ (validityReports (handleChange st (FieldUpdate.send b)).2
        = [st.idError.isNone && allParsersValid st.parsersValid]
      ∧ (handleChange st (FieldUpdate.send b)).1.idError = st.idError)
    ∧ (validityReports (handleChange st (FieldUpdate.autosend b)).2
        = [st.idError.isNone && allParsersValid st.parsersValid]
      ∧ (handleChange st (FieldUpdate.autosend b)).1.idError = st.idError) := by
  refine ⟨⟨?_, ?_⟩, ⟨?_, ?_⟩, ⟨?_, ?_⟩, ⟨?_, ?_⟩, ⟨?_, ?_⟩⟩ <;>
    simp [handleChange, applyUpdate, validityReports, validateState_snd, ownIdOk]

/-- A concrete state with a valid id, no parsers and no cached verdicts, used
as witness input. -/
def sampleState : MessageState :=
  { tabIndex := 0
    id := "1AB"
    idError := none
    name := ""
    dlc := -1
    receive := false
    send := false
    autosend := false
    parsers := []
    parsersValid := []
    showRemoveConfirm := false }

theorem nonId_field_update_validity_witness :
    validityReports (handleChange sampleState (FieldUpdate.dlc 5)).2 = [true]
    ∧ (handleChange sampleState (FieldUpdate.dlc 5)).1.idError = none :=
  ⟨((nonId_field_update_validity sampleState "x" 5 true (by decide)
      (by decide)).2.1.1).trans (by decide),
   (nonId_field_update_validity sampleState "x" 5 true (by decide)
      (by decide)).2.1.2⟩

/-- Claim C8: every mutation — a `handleChange` on any field, `onParserAdd`,
`onParserValidate`, `onParserChange` and `onParserDelete` — emits at least one
validity report among the callback invocations it performs before returning. -/
theorem every_mutation_reports_validity (st : MessageState) (u : FieldUpdate)
    (k : String) (v : Bool) (cfg : ParserCfg) :
    hasValidityReport (handleChange st u).2 = true
    ∧ hasValidityReport (onParserAdd st k).2 = true
    ∧ hasValidityReport (onParserValidate st k v).2 = true
    ∧ hasValidityReport (onParserChange st k cfg).2 = true
    ∧ hasValidityReport (onParserDelete st k).2 = true := by
  refine ⟨?_, ?_, ?_, ?_, ?_⟩ <;>
    simp [handleChange, onParserAdd, onParserValidate, onParserChange,
      onParserDelete, hasValidityReport]

/-- A state with all four transient fields (tab index, id error, child-validity
map, remove-confirm flag) replaced and the persisted fields kept. -/
def withTransient (st : MessageState) (t : Int) (e : Option String)
    (pv : List (String × Bool)) (b : Bool) : MessageState :=
  { st with tabIndex := t, idError := e, parsersValid := pv, showRemoveConfirm := b }

/-- Claim C10: every change callback fired by `handleChange` delivers exactly
the seven-field persisted configuration of the post-mutation state (the
`AdapterConfigMessage` structure has exactly the fields id, name, dlc, receive,
send, autosend, parsers), and that configuration is independent of the
transient state — tab index, id error string, child-validity map and the
remove-confirm flag. -/
theorem change_payload_persisted_only (st : MessageState) (u : FieldUpdate)
    (t : Int) (e : Option String) (pv : List (String × Bool)) (b : Bool) :
    changePayloads (handleChange st u).2 = [persistedConfig (handleChange st u).1]
    ∧ persistedConfig (withTransient st t e pv b) = persistedConfig st
    ∧ (persistedConfig (handleChange st u).1).parsers
        = (handleChange st u).1.parsers := by
  refine ⟨?_, ?_, ?_⟩
  · simp [handleChange, changePayloads]
  · simp [withTransient, persistedConfig]
  · simp [persistedConfig]

theorem length_natToBytesBE (len v : Nat) : (natToBytesBE len v).length = len := by
  induction len generalizing v with
  | zero => simp [natToBytesBE]
  | succ n ih => simp [natToBytesBE, ih]

theorem bytesToNatBE_append (xs : List Nat) (b : Nat) :
    bytesToNatBE (xs ++ [b]) = bytesToNatBE xs * 256 + b := by
  simp [bytesToNatBE, List.foldl_append]

theorem bytesToNatBE_natToBytesBE (len v : Nat) :
    bytesToNatBE (natToBytesBE len v) = v % 2 ^ (8 * len) := by
  induction len generalizing v with
  | zero => simp [natToBytesBE, bytesToNatBE, Nat.mod_one]
  | succ n ih =>
      rw [natToBytesBE, bytesToNatBE_append, ih]
      have h1 : (2 : Nat) ^ (8 * (n + 1)) = 256 * 2 ^ (8 * n) := by
        have h2 : 8 * (n + 1) = 8 + 8 * n := by ring
        rw [h2, pow_add]
        norm_num
      rw [h1, Nat.mod_mul]
      ring

theorem length_packNat (off len v : Nat) : (packNat off len v).length = off + len := by
  simp [packNat, length_natToBytesBE]

theorem extractBytes_append (off len : Nat) (bs : List Nat) (h : bs.length = len) :
    extractBytes off len (List.replicate off 0 ++ bs) = bs := by
  rw [extractBytes, List.drop_left' (List.length_replicate off 0), ← h,
    List.take_length]

theorem extractRaw_packNat (off len v : Nat) :
    extractRaw off len (packNat off len v) = v % 2 ^ (8 * len) := by
  rw [packNat, extractRaw,
    extractBytes_append off len (natToBytesBE len v) (length_natToBytesBE len v),
    bytesToNatBE_natToBytesBE]

theorem castPow (k : Nat) : (((2 ^ k : Nat) : Int)) = (2 ^ k : Int) := by
  push_cast
  ring

theorem toSignedInt_emod (len : Nat) (n : Int) (hlen : 1 ≤ len)
    (hlo : -(2 ^ (8 * len - 1) : Int) ≤ n) (hhi : n < 2 ^ (8 * len - 1)) :
    toSignedInt len ((n % (2 ^ (8 * len) : Int)).toNat) = n := by
  have hpow : (2 : Int) ^ (8 * len) = 2 ^ (8 * len - 1) * 2 := by
    rw [← pow_succ]
    congr 1
    omega
  have hApos : (0 : Int) < 2 ^ (8 * len - 1) := by positivity
  have hBpos : (0 : Int) < 2 ^ (8 * len) := by positivity
  have hcA := castPow (8 * len - 1)
  have hcB := castPow (8 * len)
  rcases le_or_lt 0 n with h0 | h0
  · have hmodval : n % (2 ^ (8 * len) : Int) = n :=
      Int.emod_eq_of_lt h0 (by omega)
    have hm : (((n % (2 ^ (8 * len) : Int)).toNat : Int)) = n := by
      rw [hmodval]
      exact Int.toNat_of_nonneg h0
    have hlt : (n % (2 ^ (8 * len) : Int)).toNat < 2 ^ (8 * len - 1) := by omega
    rw [toSignedInt, if_pos hlt, hm]
  · have h1 : (n + 2 ^ (8 * len) * 1) % (2 ^ (8 * len) : Int)
        = n % 2 ^ (8 * len) := Int.add_mul_emod_self_left n (2 ^ (8 * len)) 1
    have h2 : (n + 2 ^ (8 * len)) % (2 ^ (8 * len) : Int) = n + 2 ^ (8 * len) :=
      Int.emod_eq_of_lt (by omega) (by omega)
    have hmodval : n % (2 ^ (8 * len) : Int) = n + 2 ^ (8 * len) := by
      rw [mul_one] at h1
      rw [← h1, h2]
    have hm : (((n % (2 ^ (8 * len) : Int)).toNat : Int)) = n + 2 ^ (8 * len) := by
      rw [hmodval]
      exact Int.toNat_of_nonneg (by omega)
    have hge : ¬ (n % (2 ^ (8 * len) : Int)).toNat < 2 ^ (8 * len - 1) := by omega
    rw [toSignedInt, if_neg hge]
    omega

theorem roundtrip_unsigned (p : ParserCfg) (n : Int)
    (hr : p.customScriptRead = "") (hw : p.customScriptWrite = "")
    (hsig : isSigned p.dataType = false) (hnb : p.dataType ≠ DataType.boolean)
    (hns : p.dataType ≠ DataType.string) (hnc : p.dataType ≠ DataType.custom)
    (hnf : isFloat p.dataType = false)
    (h0 : 0 ≤ n) (hlt : n < (2 ^ (8 * p.dataLength) : Int)) :
    (encode p (CodecValue.num n)).bind (fun bs => decode p bs)
      = Except.ok (CodecValue.num n) := by
  have hcB := castPow (8 * p.dataLength)
  have hnat : n.toNat < 2 ^ (8 * p.dataLength) := by omega
  have hmod : n.toNat % 2 ^ (8 * p.dataLength) = n.toNat := Nat.mod_eq_of_lt hnat
  have hback : ((n.toNat : Int)) = n := Int.toNat_of_nonneg h0
  rw [encode, if_neg (by simp [hw]), if_neg hnb, if_neg hns, if_neg hnc,
    if_neg (by simp [hnf])]
  rw [if_neg (by simp [hsig]), if_pos ⟨h0, hlt⟩]
  show decode p (packNat p.dataOffset p.dataLength n.toNat) = _
  rw [decode, if_neg (by simp [hr]), if_neg (by rw [length_packNat]; omega)]
  rw [if_neg hnb, if_neg hns, if_neg hnc, if_neg (by simp [hnf]),
    if_neg (by simp [hsig])]
  rw [extractRaw_packNat, hmod, hback]

theorem roundtrip_signed (p : ParserCfg) (n : Int)
    (hr : p.customScriptRead = "") (hw : p.customScriptWrite = "")
    (hsig : isSigned p.dataType = true) (hnb : p.dataType ≠ DataType.boolean)
    (hns : p.dataType ≠ DataType.string) (hnc : p.dataType ≠ DataType.custom)
    (hnf : isFloat p.dataType = false)
    (hlen1 : 1 ≤ p.dataLength)
    (hlo : -(2 ^ (8 * p.dataLength - 1) : Int) ≤ n)
    (hhi : n < 2 ^ (8 * p.dataLength - 1)) :
    (encode p (CodecValue.num n)).bind (fun bs => decode p bs)
      = Except.ok (CodecValue.num n) := by
  have hcB := castPow (8 * p.dataLength)
  have hBpos : (0 : Int) < 2 ^ (8 * p.dataLength) := by positivity
  have hmodlt : n % (2 ^ (8 * p.dataLength) : Int) < 2 ^ (8 * p.dataLength) :=
    Int.emod_lt_of_pos n hBpos
  have hmodpos : 0 ≤ n % (2 ^ (8 * p.dataLength) : Int) :=
    Int.emod_nonneg n (ne_of_gt hBpos)
  have hnat : (n % (2 ^ (8 * p.dataLength) : Int)).toNat < 2 ^ (8 * p.dataLength) := by
    omega
  have hmod : (n % (2 ^ (8 * p.dataLength) : Int)).toNat % 2 ^ (8 * p.dataLength)
      = (n % (2 ^ (8 * p.dataLength) : Int)).toNat := Nat.mod_eq_of_lt hnat
  rw [encode, if_neg (by simp [hw]), if_neg hnb, if_neg hns, if_neg hnc,
    if_neg (by simp [hnf])]
  rw [if_pos hsig, if_pos ⟨hlo, hhi⟩]
  show decode p (packNat p.dataOffset p.dataLength
    ((n % (2 ^ (8 * p.dataLength) : Int)).toNat)) = _
  rw [decode, if_neg (by simp [hr]), if_neg (by rw [length_packNat]; omega)]
  rw [if_neg hnb, if_neg hns, if_neg hnc, if_neg (by simp [hnf]), if_pos hsig]
  rw [extractRaw_packNat, hmod, toSignedInt_emod p.dataLength n hlen1 hlo hhi]

theorem roundtrip_float (p : ParserCfg) (b : Nat)
    (hr : p.customScriptRead = "") (hw : p.customScriptWrite = "")
    (hnb : p.dataType ≠ DataType.boolean) (hns : p.dataType ≠ DataType.string)
    (hnc : p.dataType ≠ DataType.custom) (hf : isFloat p.dataType = true)
    (hlt : b < 2 ^ (8 * p.dataLength)) :
    (encode p (CodecValue.floatBits b)).bind (fun bs => decode p bs)
      = Except.ok (CodecValue.floatBits b) := by
  rw [encode, if_neg (by simp [hw]), if_neg hnb, if_neg hns, if_neg hnc,
    if_pos hf, if_pos hlt]
  show decode p (packNat p.dataOffset p.dataLength b) = _
  rw [decode, if_neg (by simp [hr]), if_neg (by rw [length_packNat]; omega)]
  rw [if_neg hnb, if_neg hns, if_neg hnc, if_pos hf]
  rw [extractRaw_packNat, Nat.mod_eq_of_lt hlt]

theorem roundtrip_string (p : ParserCfg) (s : String)
    (hr : p.customScriptRead = "") (hw : p.customScriptWrite = "")
    (hts : p.dataType = DataType.string)
    (hlen : s.length = p.dataLength)
    (hchars : ∀ c ∈ s.data, c.toNat < 256) :
    (encode p (CodecValue.str s)).bind (fun bs => decode p bs)
      = Except.ok (CodecValue.str s) := by
  have hnb : p.dataType ≠ DataType.boolean := by
    rw [hts]
    simp
  have hguard : (decide (s.length = p.dataLength) &&
      s.data.all (fun c => decide (c.toNat < 256))) = true := by
    simp only [hlen, decide_True, Bool.true_and, List.all_eq_true,
      decide_eq_true_eq]
    exact hchars
  have hblen : (s.data.map Char.toNat).length = p.dataLength := by
    rw [List.length_map, ← hlen]
    rfl
  rw [encode, if_neg (by simp [hw]), if_neg hnb, if_pos hts, if_pos hguard]
  show decode p (List.replicate p.dataOffset 0 ++ s.data.map Char.toNat) = _
  rw [decode, if_neg (by simp [hr]),
    if_neg (by rw [List.length_append, List.length_replicate, hblen]; omega)]
  rw [if_neg hnb, if_pos hts]
  rw [extractBytes_append p.dataOffset p.dataLength (s.data.map Char.toNat) hblen]
  have hcomp : Char.ofNat ∘ Char.toNat = id := funext Char.ofNat_toNat
  rw [List.map_map, hcomp, List.map_id]

theorem roundtrip_boolean (p : ParserCfg) (b : Bool)
    (hr : p.customScriptRead = "") (hw : p.customScriptWrite = "")
    (ht : p.dataType = DataType.boolean) (hlen : p.dataLength = 1)
    (hm0 : p.booleanMask ≠ 0) (hm256 : p.booleanMask < 256) :
    (encode p (CodecValue.bool b)).bind (fun bs => decode p bs)
      = Except.ok (CodecValue.bool b) := by
  have hmaskmod : p.booleanMask % 256 = p.booleanMask := Nat.mod_eq_of_lt hm256
  have hbne : (p.booleanMask != 0) = true := by
    simp [hm0]
  cases b <;> cases hi : p.booleanInvert <;>
    simp [encode, decode, hw, hr, ht, hlen, hi, Except.bind, length_packNat,
      extractRaw_packNat, Nat.and_self, Nat.zero_and, hmaskmod, hbne, hm0]

/-- Claim C9 (amended): for every well-formed descriptor with the custom
transforms unset and — for the boolean kind only — a non-zero `booleanMask`,
decoding the bytes produced by encoding a representable value yields the value
again, across the spec's whole `dataType` enumeration: the eight integer
kinds, the float kinds (whose values the embedding carries as raw IEEE-754 bit
patterns), the latin1 string kind, and the boolean kind; the custom kind has
no built-in interpretation with the scripts unset, so no value is
representable for it.  With `booleanMask = 0` the spec's mask-then-invert
boolean reading decodes every payload to `booleanInvert`, so the unrestricted
claim fails (see the counterexample). -/
theorem codec_roundtrip (p : ParserCfg) (v : CodecValue)
    (hwf : wellFormed p = true)
    (hr : p.customScriptRead = "") (hw : p.customScriptWrite = "")
    (hrep : representable p v = true)
    (hmask : p.dataType = DataType.boolean → p.booleanMask ≠ 0) :
    (encode p v).bind (fun bs => decode p bs) = Except.ok v := by
  rw [wellFormed] at hwf
  simp only [Bool.and_eq_true, bne_iff_ne, ne_eq, beq_iff_eq, Bool.or_eq_true,
    Bool.not_eq_true', decide_eq_true_eq] at hwf
  obtain ⟨⟨hid, hwidth⟩, hbm⟩ := hwf
  cases v with
  | bool b =>
      have ht : p.dataType = DataType.boolean := by
        by_contra hc
        simp [representable, hc] at hrep
      have hlen1 : p.dataLength = 1 := by
        rw [ht] at hwidth
        simpa [byteWidth] using hwidth
      have hm256 : p.booleanMask < 256 := by
        rcases hbm with h | h
        · exact absurd ht (by simpa using h)
        · exact h
      exact roundtrip_boolean p b hr hw ht hlen1 (hmask ht) hm256
  | str s =>
      have ht : p.dataType = DataType.string := by
        by_contra hc
        simp [representable, hc] at hrep
      simp only [representable, ht, reduceCtorEq, if_false, if_true,
        Bool.and_eq_true, decide_eq_true_eq, ite_true, ite_false,
        List.all_eq_true] at hrep
      exact roundtrip_string p s hr hw ht hrep.1 hrep.2
  | floatBits b =>
      have hf : isFloat p.dataType = true := by
        by_contra hc
        rw [Bool.not_eq_true] at hc
        simp [representable, hc] at hrep
      have hnb : p.dataType ≠ DataType.boolean := by
        intro hc
        rw [hc] at hf
        simp [isFloat] at hf
      have hns : p.dataType ≠ DataType.string := by
        intro hc
        rw [hc] at hf
        simp [isFloat] at hf
      have hnc : p.dataType ≠ DataType.custom := by
        intro hc
        rw [hc] at hf
        simp [isFloat] at hf
      have hlt : b < 2 ^ (8 * p.dataLength) := by
        simp only [representable, hnb, hns, hnc, hf, reduceCtorEq, if_false,
          if_true, ite_true, ite_false, decide_eq_true_eq] at hrep
        exact hrep
      exact roundtrip_float p b hr hw hnb hns hnc hf hlt
  | num n =>
      cases ht : p.dataType
      case boolean =>
        simp [representable, ht] at hrep
      case string =>
        simp [representable, ht] at hrep
      case custom =>
        simp [representable, ht] at hrep
      case float32 =>
        simp [representable, ht, isFloat] at hrep
      case float64 =>
        simp [representable, ht, isFloat] at hrep
      all_goals
        simp only [representable, ht, isSigned, isFloat] at hrep
      all_goals
        simp only [reduceCtorEq, if_false, if_true, Bool.and_eq_true,
          decide_eq_true_eq, ite_true, ite_false] at hrep
      case int8 | int16 | int32 | int64 =>
        exact roundtrip_signed p n hr hw (by rw [ht]; rfl) (by rw [ht]; simp)
          (by rw [ht]; simp) (by rw [ht]; simp) (by rw [ht]; rfl)
          (by rw [ht] at hwidth; simp [byteWidth] at hwidth; omega)
          hrep.1 hrep.2
      case uint8 | uint16 | uint32 | uint64 =>
        exact roundtrip_unsigned p n hr hw (by rw [ht]; rfl) (by rw [ht]; simp)
          (by rw [ht]; simp) (by rw [ht]; simp) (by rw [ht]; rfl)
          hrep.1 hrep.2

/-- The spec's own round-trip example: a plain `uint8` field at offset 0. -/
def uint8desc : ParserCfg :=
  { id := "sig"
    name := ""
    dataType := DataType.uint8
    dataLength := 1
    dataOffset := 0
    dataUnit := ""
    dataEncoding := "latin1"
    booleanMask := 0
    booleanInvert := false
    customScriptRead := ""
    customScriptWrite := "" }

theorem codec_roundtrip_witness :
    encode uint8desc (CodecValue.num 200) = Except.ok [200]
    ∧ (encode uint8desc (CodecValue.num 200)).bind (fun bs => decode uint8desc bs)
        = Except.ok (CodecValue.num 200) :=
  ⟨rfl,
   codec_roundtrip uint8desc (CodecValue.num 200) (by decide) rfl rfl (by decide)
     (by decide)⟩

/-- A well-formed boolean descriptor with `booleanMask = 0`, exactly as the
default parser configuration would leave it once an `id` is set. -/
def boolMask0Desc : ParserCfg :=
  { id := "flag"
    name := ""
    dataType := DataType.boolean
    dataLength := 1
    dataOffset := 0
    dataUnit := ""
    dataEncoding := "latin1"
    booleanMask := 0
    booleanInvert := false
    customScriptRead := ""
    customScriptWrite := "" }

/-- Claim C9 counterexample: `boolMask0Desc` is well-formed, has both custom
scripts unset, and `true` is representable in its one-byte boolean field, yet
decoding its encoding of `true` yields `false` — the spec's mask-then-invert
boolean reading cannot round-trip through a zero mask. -/
theorem codec_roundtrip_claim_counterexample :
    wellFormed boolMask0Desc = true
    ∧ boolMask0Desc.customScriptRead = ""
    ∧ boolMask0Desc.customScriptWrite = ""
    ∧ representable boolMask0Desc (CodecValue.bool true) = true
    ∧ (encode boolMask0Desc (CodecValue.bool true)).bind
        (fun bs => decode boolMask0Desc bs) = Except.ok (CodecValue.bool false) :=
  ⟨by decide, rfl, rfl, by decide, rfl⟩

end Canbus
